import Mathlib

/-!
Verification of the dot-pkg generation pipeline of
`packages/@contentlayer/core/src/commands/generate-dotpkg.ts`.

The file shallowly embeds the pure functions of that module — the cached
file writer, the directory-creation wrapper, the naming helpers and the
template renderers — and proves the specified properties about them.
Filesystem effects are made explicit: the cached writer returns whether
`fs.writeFile` ran together with the cache afterwards, and `mkdir` is a
function of the outcome of the underlying `fs.mkdir` call.
-/

namespace GenerateDotpkg

/-- `WrittenFilesCache` (generate-dotpkg.ts line 31): a JS object
`Record<FilePath, DocumentHash>` mapping output file paths to the document
hash last used to write them, modelled as a partial map. -/
def WrittenFilesCache : Type := String → Option String

/-- The initial cache `{}` (line 40). -/
def emptyCache : WrittenFilesCache := fun _ => none

/-- Result of one cached write call: whether `fs.writeFile` ran, and the
cache state afterwards. -/
structure WriteResult where
  wrote : Bool
  cache : WrittenFilesCache

/-- `writeFileWithWrittenFilesCache` (lines 133-152).  The call is skipped
when `documentHash !== undefined && writtenFilesCache[filePath] === documentHash`.
After writing, the cache is updated only under `if (documentHash)`, which in
JS is truthiness: `undefined` and the empty string both leave the cache
untouched. -/
def writeFileWithWrittenFilesCache (writtenFilesCache : WrittenFilesCache)
    (filePath : String) (content : String) (documentHash : Option String) :
    WriteResult :=
  if documentHash ≠ none ∧ writtenFilesCache filePath = documentHash then
    { wrote := false, cache := writtenFilesCache }
  else
    { wrote := true
      cache :=
        match documentHash with
        | some h =>
          if h = "" then writtenFilesCache
          else fun p => if p = filePath then some h else writtenFilesCache p
        | none => writtenFilesCache }

/-- A node-style filesystem error, carrying its `code` property. -/
structure FsError where
  code : String
deriving DecidableEq

/-- `mkdir` (lines 120-128): runs `fs.mkdir` and swallows the error iff its
code is `EEXIST`; the outcome of the underlying `fs.mkdir` call is passed in
as `result`. -/
def mkdir (result : Except FsError Unit) : Except FsError Unit :=
  match result with
  | .ok _ => .ok ()
  | .error e => if e.code ≠ "EEXIST" then .error e else .ok ()

/-- Character-level model of `str.replace(/\//g, "__")` (line 332). -/
def replaceSlashes : List Char → List Char
  | [] => []
  | c :: rest => if c = '/' then '_' :: '_' :: replaceSlashes rest else c :: replaceSlashes rest

/-- `/^[0-9]/.test(str)` (line 336). -/
def startsWithDigit : List Char → Bool
  | [] => false
  | c :: _ => c.isDigit

/-- `leftPadWithUnderscoreIfStartsWithNumber` (lines 335-340). -/
def leftPadWithUnderscoreIfStartsWithNumber (str : List Char) : List Char :=
  if startsWithDigit str then '_' :: str else str

/-- `idToFileName` (lines 331-333): the source pads first, then replaces
every slash by a double underscore. -/
def idToFileName (id : String) : String :=
  ⟨replaceSlashes (leftPadWithUnderscoreIfStartsWithNumber id.data)⟩

/-- The spec's description of `fileNameForId`: replace every slash by a
double underscore first, then pad if the result starts with a digit. -/
def fileNameForIdSpec (id : String) : String :=
  ⟨leftPadWithUnderscoreIfStartsWithNumber (replaceSlashes id.data)⟩

/-- `lowercaseFirstChar` from `@contentlayer/utils` (outside src/).
Modelled from the spec: lower-cases the first character. -/
def lowercaseFirstChar (s : String) : String :=
  match s.data with
  | [] => ""
  | c :: cs => ⟨c.toLower :: cs⟩

/-- `uppercaseFirstChar` from `@contentlayer/utils` (outside src/).
Modelled from the spec: upper-cases the first character. -/
def uppercaseFirstChar (s : String) : String :=
  match s.data with
  | [] => ""
  | c :: cs => ⟨c.toUpper :: cs⟩

namespace inflection

/-- Modelled from the spec: `inflection.pluralize` (re-exported by
`@contentlayer/utils`, outside src/) follows standard English inflection;
simplified here to the regular "-s" rule, which covers the regular nouns
in the claims. -/
def pluralize (s : String) : String :=
  if s.data.getLast? = some 's' then s else s ++ ("s")

/-- Modelled from the spec: `inflection.singularize` (outside src/),
simplified to the regular "-s" rule. -/
def singularize (s : String) : String :=
  if s.data.getLast? = some 's' then ⟨s.data.dropLast⟩ else s

end inflection

/-- Modelled from the spec: `DocumentTypeDef` (`DocumentDef` in ../schema,
outside src/) restricted to the fields the rendering functions in this
module read: `name` and `isSingleton`.  Its field descriptions are consumed
only by `renderDocumentOrObjectDef` (generate-types.ts, outside src/),
which is abstracted as a render parameter below. -/
structure DocumentDef where
  name : String
  isSingleton : Bool
deriving DecidableEq

/-- `getDataVariableName` (lines 323-329). -/
def getDataVariableName (docDef : DocumentDef) : String :=
  if docDef.isSingleton then
    lowercaseFirstChar (inflection.singularize docDef.name)
  else
    "all" ++ uppercaseFirstChar (inflection.pluralize docDef.name)

/-- `autogeneratedNote` (line 208). -/
def autogeneratedNote : String := "NOTE This file is auto-generated by the Contentlayer CLI"

/-- Lower-case a whole word (helper for the camel-case model). -/
def wordLower (w : String) : String := ⟨w.data.map Char.toLower⟩

/-- Capitalize a word: first character upper, rest lower (helper for the
camel-case model). -/
def wordCap (w : String) : String :=
  match w.data with
  | [] => ""
  | c :: cs => ⟨c.toUpper :: cs.map Char.toLower⟩

/-- Modelled from the spec: `importBindingName` — the external camel-case
package applied with `stripRegexp: /[^A-Z0-9\_]/gi` (line 165, outside this
repository) strips all characters outside [A-Za-z0-9_] and camel-cases the
remainder; underscores separate words. -/
def camelCase (s : String) : String :=
  let kept : List Char := s.data.filter (fun c => c.isAlphanum || c = '_')
  let words := ((String.mk kept).splitOn ("_")).filter (fun w => w ≠ "")
  match words with
  | [] => ""
  | w :: ws => wordLower w ++ String.join (ws.map wordCap)

/-- `makeVariableName` (line 165): `flow(idToFileName, camelCase)`. -/
def makeVariableName (id : String) : String := camelCase (idToFileName id)

/-- `makeDataExportFile` (lines 154-178).  In the singleton branch the
source reads `documentIds[0]`; with an empty list this is `undefined`, and
`idToFileName(undefined)` throws a TypeError when `.replace` is called, so
that failure is modelled as `none`. -/
def makeDataExportFile (docDef : DocumentDef) (documentIds : List String) : Option String :=
  let dataVariableName := getDataVariableName docDef
  if docDef.isSingleton then
    match documentIds with
    | [] => none
    | documentId :: _ =>
      some ("// " ++ autogeneratedNote ++ "\nexport \x7b default as " ++ dataVariableName ++
        " \x7d from \x27./" ++ docDef.name ++ "/" ++ idToFileName documentId ++ ".json\x27\n")
  else
    let docImports := String.intercalate ("\n") (documentIds.map (fun i =>
      "import " ++ makeVariableName i ++ " from \x27./" ++ docDef.name ++ "/" ++
        idToFileName i ++ ".json\x27"))
    some ("// " ++ autogeneratedNote ++ "\n\n" ++ docImports ++ "\n\nexport const " ++
      dataVariableName ++ " = [" ++
      String.intercalate (", ") (documentIds.map makeVariableName) ++ "]\n")

/-- `makeIndexJs` (lines 180-206).  `Object.values(schemaDef.documentDefMap)`
is modelled as the list of document type definitions in the map's iteration
order. -/
def makeIndexJs (documentDefMapValues : List DocumentDef) : String :=
  let dataVariableNames := documentDefMapValues.map (fun docDef => (docDef, getDataVariableName docDef))
  let constReexports := String.intercalate ("\n") (dataVariableNames.map (fun p =>
    "export * from \x27./" ++ p.2 ++ ".js\x27"))
  let constImportsForAllDocuments := String.intercalate ("\n") (dataVariableNames.map (fun p =>
    "import \x7b " ++ p.2 ++ " \x7d from \x27./" ++ p.2 ++ ".js\x27"))
  let allDocuments := String.intercalate (", ") (dataVariableNames.map (fun p =>
    if p.1.isSingleton then p.2 else "..." ++ p.2))
  "// " ++ autogeneratedNote ++ "\n\nexport \x7b isType \x7d from \x27contentlayer/client\x27\n\n" ++
    constReexports ++ "\n" ++ constImportsForAllDocuments ++
    "\n\nexport const allDocuments = [" ++ allDocuments ++ "]\n"

/-- Modelled from the spec: an auxiliary (embeddable, non-document) object
type definition (`ObjectDef` in ../schema, outside src/), restricted to the
`name` field read by this module. -/
structure ObjectDef where
  name : String
deriving DecidableEq

/-- `makeTypes` (lines 210-288).  `Object.values` of the two schema maps is
modelled as lists in iteration order; `Array.prototype.sort` with the
`a.name.localeCompare(b.name)` comparator is modelled as a stable sort by
the string order on names; `renderDocumentOrObjectDef` (generate-types.ts,
outside src/) is abstracted as the two render parameters; the ts-pattern
match on `sourcePluginType` is a string comparison against "local" and
"contentful" with an otherwise-empty default. -/
def makeTypes (renderDocumentDef : DocumentDef → String)
    (renderObjectDef : ObjectDef → String)
    (documentDefMapValues : List DocumentDef) (objectDefMapValues : List ObjectDef)
    (sourcePluginType : String) : String :=
  let documentTypes := (List.insertionSort (fun a b => a.name ≤ b.name) documentDefMapValues).map
    (fun d => (d.name, renderDocumentDef d))
  let objectTypes := (List.insertionSort (fun a b => a.name ≤ b.name) objectDefMapValues).map
    (fun d => (d.name, renderObjectDef d))
  let typeMap := String.intercalate ("\n") (documentTypes.map (fun p => "  " ++ p.1 ++ ": " ++ p.1))
  let importsForRawTypes :=
    if sourcePluginType = "local" then
      "import * as Local from \x27contentlayer/source-local\x27"
    else if sourcePluginType = "contentful" then
      "import * as Contentful from \x27@contentlayer/source-contentful\x27"
    else ""
  "// " ++ autogeneratedNote ++
    "\n\nimport type \x7b Markdown, MDX \x7d from \x27contentlayer/core\x27\n" ++
    importsForRawTypes ++
    "\n\nexport \x7b isType \x7d from \x27contentlayer/client\x27\n\nexport type Image = string\nexport type \x7b Markdown, MDX \x7d\n\nexport interface ContentlayerGenTypes \x7b\n  documentTypes: DocumentTypes\n  documentTypeMap: DocumentTypeMap\n  documentTypeNames: DocumentTypeNames\n  allTypeNames: AllTypeNames\n\x7d\n\ndeclare global \x7b\n  interface ContentlayerGen extends ContentlayerGenTypes \x7b\x7d\n\x7d\n\nexport type DocumentTypeMap = \x7b\n" ++
    typeMap ++
    "\n\x7d\n\nexport type AllTypes = DocumentTypes | ObjectTypes\nexport type AllTypeNames = DocumentTypeNames | ObjectTypeNames\n\nexport type DocumentTypes = " ++
    String.intercalate (" | ") (documentTypes.map (fun p => p.1)) ++
    "\nexport type DocumentTypeNames = DocumentTypes[\x27_typeName\x27]\n\nexport type ObjectTypes = " ++
    (if objectTypes.length > 0 then String.intercalate (" | ") (objectTypes.map (fun p => p.1))
      else "never") ++
    "\nexport type ObjectTypeNames = ObjectTypes[\x27_typeName\x27]\n\n\n\n/** Document types */\n" ++
    String.intercalate ("\n\n") (documentTypes.map (fun p => p.2)) ++
    "  \n\n/** Object types */\n" ++
    String.intercalate ("\n\n") (objectTypes.map (fun p => p.2)) ++
    "  \n  \n "

/-- `n` spaces, for pretty-printed JSON indentation. -/
def indentSpaces (n : Nat) : String := ⟨List.replicate n ' '⟩

/-- A JSON value of the shapes appearing in the manifest object literal of
`makePackageJson` (lines 96-118). -/
inductive Json where
  | str : String → Json
  | arr : List Json → Json
  | obj : List (String × Json) → Json

mutual
/-- Modelled from the spec: `JSON.stringify(value, null, 2)` — the JS
builtin used at line 117 — pretty-prints with two-space indentation. -/
def jsonStringify (j : Json) (indent : Nat) : String :=
  match j with
  | .str s => "\"" ++ s ++ "\""
  | .arr [] => "[]"
  | .arr xs =>
    "[\n" ++ String.intercalate (",\n") (jsonStringifyItems xs (indent + 2)) ++ "\n" ++
      indentSpaces indent ++ "]"
  | .obj [] => "\x7b\x7d"
  | .obj fields =>
    "\x7b\n" ++ String.intercalate (",\n") (jsonStringifyFields fields (indent + 2)) ++ "\n" ++
      indentSpaces indent ++ "\x7d"

/-- Each array element on its own indented line. -/
def jsonStringifyItems (xs : List Json) (indent : Nat) : List String :=
  match xs with
  | [] => []
  | x :: rest => (indentSpaces indent ++ jsonStringify x indent) :: jsonStringifyItems rest indent

/-- Each object field on its own indented line. -/
def jsonStringifyFields (fields : List (String × Json)) (indent : Nat) : List String :=
  match fields with
  | [] => []
  | (k, v) :: rest =>
    (indentSpaces indent ++ "\"" ++ k ++ "\": " ++ jsonStringify v indent) ::
      jsonStringifyFields rest indent
end

/-- The field names of a JSON object. -/
def Json.keys : Json → List String
  | .obj fields => fields.map (fun p => p.1)
  | _ => []

/-- Field lookup in a JSON object. -/
def Json.get (j : Json) (k : String) : Option Json :=
  match j with
  | .obj fields => (fields.find? (fun p => p.1 == k)).map (fun p => p.2)
  | _ => none

/-- The manifest object literal built by `makePackageJson` (lines 97-115). -/
def packageJson : Json :=
  .obj [
    ("name", .str ("dot-contentlayer")),
    ("description", .str ("This package is auto-generated by Contentlayer")),
    ("version", .str ("0.0.0")),
    ("exports", .obj [
      ("./data", .obj [("import", .str ("./data/index.js"))]),
      ("./types", .obj [("import", .str ("./types/index.js"))])]),
    ("typesVersions", .obj [
      ("*", .obj [
        ("data", .arr [.str ("./data")]),
        ("types", .arr [.str ("./types")])])])]

/-- `makePackageJson` (lines 96-118): takes no input, so the manifest is a
constant independent of schema and documents. -/
def makePackageJson : String := jsonStringify packageJson 0

/-- C1: a cached write is skipped iff a hash was supplied and the cache
stores exactly that hash for that exact path; a call without a hash always
performs the write. -/
theorem writeFile_skips_iff_hash_matches (cache : WrittenFilesCache)
    (filePath content : String) (documentHash : Option String) :
    ((writeFileWithWrittenFilesCache cache filePath content documentHash).wrote = false ↔
      ∃ h, documentHash = some h ∧ cache filePath = some h) ∧
    (writeFileWithWrittenFilesCache cache filePath content none).wrote = true := by
  refine ⟨?_, ?_⟩
  · cases documentHash with
    | none => simp [writeFileWithWrittenFilesCache]
    | some h =>
      by_cases hc : cache filePath = some h
      · simp [writeFileWithWrittenFilesCache, hc]
      · simp [writeFileWithWrittenFilesCache, hc]
  · simp [writeFileWithWrittenFilesCache]

/-- C2 counterexample: with the empty-string hash a successful write does
not update the cache (JS truthiness of `if (documentHash)`), so the
immediately following identical call writes again instead of being
skipped. -/
theorem writeFile_emptyHash_counterexample :
    (writeFileWithWrittenFilesCache emptyCache ("p") ("c") (some (""))).wrote = true ∧
    (writeFileWithWrittenFilesCache emptyCache ("p") ("c") (some (""))).cache ("p") = none ∧
    (writeFileWithWrittenFilesCache
      ((writeFileWithWrittenFilesCache emptyCache ("p") ("c") (some (""))).cache)
      ("p") ("c") (some (""))).wrote = true :=
  ⟨rfl, rfl, rfl⟩

/-- C2 (amended): for every nonempty hash, a call that performs the write
records the hash for that path, and the identical next call in the same
process is skipped. -/
theorem writeFile_cache_updated_nonempty_hash (cache : WrittenFilesCache)
    (filePath content h : String) (hne : h ≠ "")
    (hw : (writeFileWithWrittenFilesCache cache filePath content (some h)).wrote = true) :
    (writeFileWithWrittenFilesCache cache filePath content (some h)).cache filePath = some h ∧
    (writeFileWithWrittenFilesCache
      ((writeFileWithWrittenFilesCache cache filePath content (some h)).cache)
      filePath content (some h)).wrote = false := by
  by_cases hc : cache filePath = some h
  · simp [writeFileWithWrittenFilesCache, hc] at hw
  · simp [writeFileWithWrittenFilesCache, hc, hne]

/-- Witness for the amended C2 theorem at a concrete input. -/
theorem writeFile_cache_updated_nonempty_hash_witness :
    (("x" : String) ≠ "" ∧
      (writeFileWithWrittenFilesCache emptyCache ("p") ("c") (some ("x"))).wrote = true) ∧
    ((writeFileWithWrittenFilesCache emptyCache ("p") ("c") (some ("x"))).cache ("p") = some ("x") ∧
      (writeFileWithWrittenFilesCache
        ((writeFileWithWrittenFilesCache emptyCache ("p") ("c") (some ("x"))).cache)
        ("p") ("c") (some ("x"))).wrote = false) :=
  ⟨⟨by decide, rfl⟩,
    writeFile_cache_updated_nonempty_hash emptyCache ("p") ("c") ("x") (by decide) rfl⟩

/-- C3: a write with a hash at one path changes no cache entry at any other
path. -/
theorem writeFile_frame (cache : WrittenFilesCache) (filePath content h p2 : String)
    (hw : (writeFileWithWrittenFilesCache cache filePath content (some h)).wrote = true)
    (hne : p2 ≠ filePath) :
    (writeFileWithWrittenFilesCache cache filePath content (some h)).cache p2 = cache p2 := by
  unfold writeFileWithWrittenFilesCache
  split
  · rfl
  · by_cases he : h = ""
    · simp [he]
    · simp [he, hne]

/-- Witness for the C3 frame theorem at a concrete input. -/
theorem writeFile_frame_witness :
    ((writeFileWithWrittenFilesCache emptyCache ("p") ("c") (some ("x"))).wrote = true ∧
      ("q" : String) ≠ ("p")) ∧
    (writeFileWithWrittenFilesCache emptyCache ("p") ("c") (some ("x"))).cache ("q") =
      emptyCache ("q") :=
  ⟨⟨rfl, by decide⟩, writeFile_frame emptyCache ("p") ("c") ("x") ("q") rfl (by decide)⟩

/-- Padding before replacing slashes equals replacing slashes before
padding: replacing slashes never turns the first character into or away
from a digit. -/
theorem replaceSlashes_pad_comm (l : List Char) :
    replaceSlashes (leftPadWithUnderscoreIfStartsWithNumber l) =
    leftPadWithUnderscoreIfStartsWithNumber (replaceSlashes l) := by
  have hSlash : ('/').isDigit = false := rfl
  have hUnder : ('_').isDigit = false := rfl
  cases l with
  | nil => rfl
  | cons c rest =>
    by_cases hc : c = '/'
    · subst hc
      simp [leftPadWithUnderscoreIfStartsWithNumber, startsWithDigit, replaceSlashes,
        hSlash, hUnder]
    · by_cases hd : c.isDigit
      · simp [leftPadWithUnderscoreIfStartsWithNumber, startsWithDigit, replaceSlashes,
          hc, hd, hUnder]
      · simp [leftPadWithUnderscoreIfStartsWithNumber, startsWithDigit, replaceSlashes,
          hc, hd]

/-- C5: the source's pad-then-replace `idToFileName` agrees with the spec's
replace-then-pad description on every input, and on the concrete example
`2024/post`. -/
theorem idToFileName_matches_spec :
    (∀ id : String, idToFileName id = fileNameForIdSpec id) ∧
    idToFileName ("2024/post") = ("_2024__post") := by
  refine ⟨?_, ?_⟩
  · intro id
    unfold idToFileName fileNameForIdSpec
    rw [replaceSlashes_pad_comm]
  · decide

/-- C9: directory creation swallows an already-exists failure and succeeds,
propagates every other failure, and passes success through. -/
theorem mkdir_eexist_tolerated (e : FsError) (hne : e.code ≠ "EEXIST") :
    mkdir (.error ⟨"EEXIST"⟩) = .ok () ∧
    mkdir (.error e) = .error e ∧
    mkdir (.ok ()) = .ok () := by
  refine ⟨rfl, ?_, rfl⟩
  simp [mkdir, hne]

/-- Witness for the C9 theorem at a concrete non-EEXIST error. -/
theorem mkdir_eexist_tolerated_witness :
    (FsError.mk ("EPERM")).code ≠ "EEXIST" ∧
    mkdir (.error ⟨"EPERM"⟩) = .error ⟨"EPERM"⟩ :=
  ⟨by decide, (mkdir_eexist_tolerated ⟨"EPERM"⟩ (by decide)).2.1⟩

/-- C4: the data variable name is the lower-camel singular form for a
singleton type and "all" plus the PascalCase plural form otherwise; a
singleton `Author` gives `author` and a collection `Post` gives
`allPosts`. -/
theorem getDataVariableName_spec :
    (∀ docDef : DocumentDef,
      getDataVariableName docDef =
        if docDef.isSingleton then lowercaseFirstChar (inflection.singularize docDef.name)
        else "all" ++ uppercaseFirstChar (inflection.pluralize docDef.name)) ∧
    getDataVariableName ⟨"Author", true⟩ = ("author") ∧
    getDataVariableName ⟨"Post", false⟩ = ("allPosts") := by
  refine ⟨fun docDef => rfl, by decide, by decide⟩

set_option maxRecDepth 8192 in
/-- C6: the aggregate data entry module re-exports every per-type barrel
and builds the `allDocuments` sequence in schema-iteration order, taking
singleton values directly and spreading collection values; for a singleton
`Author` followed by a collection `Post` the sequence reads
`[author, ...allPosts]`. -/
theorem makeIndexJs_structure :
    (∀ defs : List DocumentDef,
      makeIndexJs defs =
        "// " ++ autogeneratedNote ++
          "\n\nexport \x7b isType \x7d from \x27contentlayer/client\x27\n\n" ++
          String.intercalate ("\n") (defs.map (fun d =>
            "export * from \x27./" ++ getDataVariableName d ++ ".js\x27")) ++ "\n" ++
          String.intercalate ("\n") (defs.map (fun d =>
            "import \x7b " ++ getDataVariableName d ++ " \x7d from \x27./" ++
              getDataVariableName d ++ ".js\x27")) ++
          "\n\nexport const allDocuments = [" ++
          String.intercalate (", ") (defs.map (fun d =>
            if d.isSingleton then getDataVariableName d else "..." ++ getDataVariableName d)) ++
          "]\n") ∧
    makeIndexJs [⟨"Author", true⟩, ⟨"Post", false⟩] =
      "// NOTE This file is auto-generated by the Contentlayer CLI\n\nexport \x7b isType \x7d from \x27contentlayer/client\x27\n\nexport * from \x27./author.js\x27\nexport * from \x27./allPosts.js\x27\nimport \x7b author \x7d from \x27./author.js\x27\nimport \x7b allPosts \x7d from \x27./allPosts.js\x27\n\nexport const allDocuments = [author, ...allPosts]\n" := by
  refine ⟨?_, ?_⟩
  · intro defs
    simp only [makeIndexJs, List.map_map]
    rfl
  · rfl

/-- C10: rendering the per-type barrel of a singleton document type fails
(raises) on an empty id list and succeeds on every non-empty one. -/
theorem makeDataExportFile_singleton_totality (docDef : DocumentDef)
    (hs : docDef.isSingleton = true) :
    makeDataExportFile docDef [] = none ∧
    ∀ (documentId : String) (rest : List String),
      (makeDataExportFile docDef (documentId :: rest)).isSome = true := by
  refine ⟨?_, ?_⟩
  · simp [makeDataExportFile, hs]
  · intro documentId rest
    simp [makeDataExportFile, hs]

/-- Witness for the C10 theorem at a concrete singleton type. -/
theorem makeDataExportFile_singleton_totality_witness :
    (DocumentDef.mk ("Author") true).isSingleton = true ∧
    makeDataExportFile ⟨"Author", true⟩ [] = none :=
  ⟨rfl, (makeDataExportFile_singleton_totality ⟨"Author", true⟩ rfl).1⟩

/-- Two lists sorted by a key are equal whenever they are permutations of
each other and the keys are pairwise distinct. -/
theorem eq_of_perm_of_sorted_key {α : Type} (key : α → String) :
    ∀ (l₁ l₂ : List α), List.Perm l₁ l₂ →
      l₁.Sorted (fun a b => key a ≤ key b) → l₂.Sorted (fun a b => key a ≤ key b) →
      (l₁.map key).Nodup → l₁ = l₂ := by
  intro l₁
  induction l₁ with
  | nil =>
    intro l₂ hp _ _ _
    exact (hp.symm.eq_nil).symm
  | cons a t₁ ih =>
    intro l₂ hp hs₁ hs₂ hnd
    cases l₂ with
    | nil => exact absurd hp.eq_nil (by simp)
    | cons b t₂ =>
      by_cases hab : a = b
      · subst hab
        have ht : List.Perm t₁ t₂ := hp.cons_inv
        have htl : t₁ = t₂ :=
          ih t₂ ht hs₁.of_cons hs₂.of_cons (by simpa using (List.nodup_cons.mp (by simpa using hnd)).2)
        rw [htl]
      · exfalso
        have ha₂ : a ∈ b :: t₂ := hp.subset (List.mem_cons_self a t₁)
        have ha : a ∈ t₂ := by
          rcases List.mem_cons.mp ha₂ with h | h
          · exact absurd h hab
          · exact h
        have hb₁ : b ∈ a :: t₁ := hp.symm.subset (List.mem_cons_self b t₂)
        have hb : b ∈ t₁ := by
          rcases List.mem_cons.mp hb₁ with h | h
          · exact absurd h.symm hab
          · exact h
        have h₁ : key a ≤ key b := List.rel_of_sorted_cons hs₁ b hb
        have h₂ : key b ≤ key a := List.rel_of_sorted_cons hs₂ a ha
        have hk : key a = key b := le_antisymm h₁ h₂
        have hmem : key a ∈ t₁.map key := hk ▸ List.mem_map_of_mem key hb
        exact (List.nodup_cons.mp (by simpa using hnd)).1 hmem

/-- Sorting by a key is invariant under permutation when the keys are
pairwise distinct. -/
theorem insertionSort_key_eq_of_perm {α : Type} (key : α → String)
    (l₁ l₂ : List α) (hp : List.Perm l₁ l₂) (hnd : (l₁.map key).Nodup) :
    List.insertionSort (fun a b => key a ≤ key b) l₁ =
    List.insertionSort (fun a b => key a ≤ key b) l₂ := by
  haveI : IsTotal α (fun a b => key a ≤ key b) := ⟨fun a b => le_total (key a) (key b)⟩
  haveI : IsTrans α (fun a b => key a ≤ key b) := ⟨fun _ _ _ hab hbc => le_trans hab hbc⟩
  apply eq_of_perm_of_sorted_key key
  · exact (List.perm_insertionSort _ l₁).trans (hp.trans (List.perm_insertionSort _ l₂).symm)
  · exact List.sorted_insertionSort _ l₁
  · exact List.sorted_insertionSort _ l₂
  · exact (((List.perm_insertionSort _ l₁).map key).nodup_iff).mpr hnd

/-- C7: the rendered type-declaration module lists document types and
object types sorted alphabetically by name, so the rendered text is the
same for any iteration order of the schema maps (the maps have pairwise
distinct type names, being keyed by them). -/
theorem makeTypes_perm_invariant (renderDocumentDef : DocumentDef → String)
    (renderObjectDef : ObjectDef → String) (sourcePluginType : String)
    (dd₁ dd₂ : List DocumentDef) (od₁ od₂ : List ObjectDef)
    (hd : List.Perm dd₁ dd₂) (ho : List.Perm od₁ od₂)
    (hdn : (dd₁.map DocumentDef.name).Nodup) (hon : (od₁.map ObjectDef.name).Nodup) :
    makeTypes renderDocumentDef renderObjectDef dd₁ od₁ sourcePluginType =
    makeTypes renderDocumentDef renderObjectDef dd₂ od₂ sourcePluginType := by
  unfold makeTypes
  rw [insertionSort_key_eq_of_perm DocumentDef.name dd₁ dd₂ hd hdn,
    insertionSort_key_eq_of_perm ObjectDef.name od₁ od₂ ho hon]

/-- Witness for the C7 theorem: swapping a two-type document map leaves the
rendered module unchanged. -/
theorem makeTypes_perm_invariant_witness :
    (List.Perm ([⟨"Post", false⟩, ⟨"Author", true⟩] : List DocumentDef)
        [⟨"Author", true⟩, ⟨"Post", false⟩] ∧
      (([⟨"Post", false⟩, ⟨"Author", true⟩] : List DocumentDef).map DocumentDef.name).Nodup) ∧
    makeTypes (fun d => d.name) (fun o => o.name)
      [⟨"Post", false⟩, ⟨"Author", true⟩] [] ("local") =
    makeTypes (fun d => d.name) (fun o => o.name)
      [⟨"Author", true⟩, ⟨"Post", false⟩] [] ("local") :=
  ⟨⟨List.Perm.swap (⟨"Author", true⟩ : DocumentDef) ⟨"Post", false⟩ [], by decide⟩,
    makeTypes_perm_invariant (fun d => d.name) (fun o => o.name) ("local")
      [⟨"Post", false⟩, ⟨"Author", true⟩] [⟨"Author", true⟩, ⟨"Post", false⟩] [] []
      (List.Perm.swap (⟨"Author", true⟩ : DocumentDef) ⟨"Post", false⟩ []) (List.Perm.refl [])
      (by decide) (by decide)⟩

set_option maxRecDepth 8192 in
/-- C8: the package manifest is a fixed constant: its exports map has
exactly the subpaths ./data and ./types, the typesVersions map mirrors the
same two subpaths, name and version are fixed, and the rendered text is a
fixed literal. -/
theorem makePackageJson_fixed :
    ((packageJson.get ("exports")).map Json.keys = some ["./data", "./types"]) ∧
    (((packageJson.get ("typesVersions")).bind (fun tv => tv.get ("*"))).map Json.keys =
      some ["data", "types"]) ∧
    ((packageJson.get ("typesVersions")).bind (fun tv => tv.get ("*")) =
      some (.obj [("data", .arr [.str ("./data")]), ("types", .arr [.str ("./types")])])) ∧
    packageJson.get ("name") = some (.str ("dot-contentlayer")) ∧
    packageJson.get ("version") = some (.str ("0.0.0")) ∧
    makePackageJson =
      "\x7b\n  \"name\": \"dot-contentlayer\",\n  \"description\": \"This package is auto-generated by Contentlayer\",\n  \"version\": \"0.0.0\",\n  \"exports\": \x7b\n    \"./data\": \x7b\n      \"import\": \"./data/index.js\"\n    \x7d,\n    \"./types\": \x7b\n      \"import\": \"./types/index.js\"\n    \x7d\n  \x7d,\n  \"typesVersions\": \x7b\n    \"*\": \x7b\n      \"data\": [\n        \"./data\"\n      ],\n      \"types\": [\n        \"./types\"\n      ]\n    \x7d\n  \x7d\n\x7d" := by
  refine ⟨rfl, rfl, rfl, rfl, rfl, ?_⟩
  rfl

end GenerateDotpkg
